import Mathlib

/-
  Verification development for the xyz-football-api match lifecycle and
  result/report engine.

  The definitions below are a shallow embedding of the Go source:
  - internal/service match service (Create, Update, SubmitResult,
    UpdateResult, processResult),
  - internal/service/report_service.go (computeMatchResult, the top-scorer
    scan of GetMatchReportByID),
  - the match repository (FindByID, Update/Save, CountWins) and the goal
    repository (CreateBatch, DeleteByMatchID),
  - the gin binding validation declared on dto.GoalInput.

  The entity store is modelled as explicit lists of records; every service
  call returns the post-call store together with the call result, so that
  writes performed before a failure (such as the goal deletion done by
  UpdateResult before validation) are visible in the final state.
-/

namespace XyzFootball

abbrev TeamID := Nat
abbrev PlayerID := Nat
abbrev MatchID := Nat

/-- Match status. model/match.go restricts statuses to the two values of
ValidMatchStatuses: "scheduled" and "completed". -/
inductive MatchStatus where
  | scheduled
  | completed
deriving Repr, DecidableEq

/-- model/player.go: the fields of Player used by the result engine. -/
structure Player where
  id : PlayerID
  teamId : TeamID
  name : String
deriving Repr, DecidableEq

/-- model/match.go: a match row. Scores are Go ints, embedded as Int. -/
structure Match where
  id : MatchID
  homeTeamId : TeamID
  awayTeamId : TeamID
  matchDate : String
  matchTime : String
  homeScore : Int
  awayScore : Int
  status : MatchStatus
deriving Repr, DecidableEq

/-- model/goal.go: a goal row. -/
structure Goal where
  matchId : MatchID
  playerId : PlayerID
  teamId : TeamID
  minute : Int
deriving Repr, DecidableEq

/-- dto.GoalInput after uuid parsing: one goal entry of a MatchResultRequest. -/
structure GoalInput where
  playerId : PlayerID
  teamId : TeamID
  minute : Int
deriving Repr, DecidableEq

/-- The entity store: team ids, player, match and goal records. -/
structure Store where
  teams : List TeamID
  players : List Player
  matchRows : List Match
  goals : List Goal
deriving Repr, DecidableEq

/-- The caller-facing rejections surfaced by the match service and the
result-request binding, one constructor per distinct rejection. -/
inductive AppErr where
  | matchNotFound
  | alreadyCompleted
  | notYetCompleted
  | matchAlreadyCompleted
  | invalidTeams
  | homeTeamNotFound
  | awayTeamNotFound
  | teamNotInMatch
  | playerNotFound
  | playerTeamMismatch
  | invalidMinute
deriving Repr, DecidableEq

/-- matchRepository.FindByID: first match record with the given id. -/
def findMatchByID (s : Store) (mid : MatchID) : Option Match :=
  s.matchRows.find? (fun m => m.id == mid)

/-- playerRepository.FindByID: first player record with the given id. -/
def findPlayerByID (s : Store) (pid : PlayerID) : Option Player :=
  s.players.find? (fun p => p.id == pid)

/-- goalRepository.FindByMatchID restricted to record selection: the goal
records belonging to a match. -/
def goalsOfMatch (s : Store) (mid : MatchID) : List Goal :=
  s.goals.filter (fun g => g.matchId == mid)

/-- matchRepository.Update (gorm Save): replace the row with the same id. -/
def saveMatch (l : List Match) (m : Match) : List Match :=
  l.map (fun x => if x.id == m.id then m else x)

/-- goalRepository.DeleteByMatchID: remove all goal rows of a match. -/
def deleteGoalsByMatchID (l : List Goal) (mid : MatchID) : List Goal :=
  l.filter (fun g => !(g.matchId == mid))

/-- goalRepository.CreateBatch: append the batch (a no-op when empty). -/
def createGoalsBatch (l : List Goal) (batch : List Goal) : List Goal :=
  l ++ batch

/-- The goal row built by processResult for one validated goal input. -/
def toGoal (m : Match) (g : GoalInput) : Goal :=
  { matchId := m.id, playerId := g.playerId, teamId := g.teamId, minute := g.minute }

/-- The validation-and-scoring loop of processResult: walk the submitted
goals in order, reject on the first invalid one, otherwise accumulate the
home and away counters and the goal rows to insert. -/
def processGoalsAux (s : Store) (m : Match) :
    List GoalInput → Int → Int → List Goal → Except AppErr (Int × Int × List Goal)
  | [], hs, as, acc => .ok (hs, as, acc.reverse)
  | g :: rest, hs, as, acc =>
    if g.teamId ≠ m.homeTeamId ∧ g.teamId ≠ m.awayTeamId then
      .error .teamNotInMatch
    else
      match findPlayerByID s g.playerId with
      | none => .error .playerNotFound
      | some p =>
        if p.teamId ≠ g.teamId then
          .error .playerTeamMismatch
        else if g.teamId = m.homeTeamId then
          processGoalsAux s m rest (hs + 1) as (toGoal m g :: acc)
        else
          processGoalsAux s m rest hs (as + 1) (toGoal m g :: acc)

/-- matchService.processResult: validate all goals, then insert the goal
batch, set the computed scores, mark the match completed and save it. On a
validation failure nothing is written. -/
def processResult (s : Store) (m : Match) (req : List GoalInput) :
    Store × Except AppErr Match :=
  match processGoalsAux s m req 0 0 [] with
  | .error e => (s, .error e)
  | .ok (hs, as, gs) =>
    let s1 : Store := { s with goals := createGoalsBatch s.goals gs }
    let m2 : Match := { m with homeScore := hs, awayScore := as, status := .completed }
    ({ s1 with matchRows := saveMatch s1.matchRows m2 }, .ok m2)

/-- matchService.SubmitResult: legal only from scheduled; a completed match
is rejected before any write. -/
def SubmitResult (s : Store) (mid : MatchID) (req : List GoalInput) :
    Store × Except AppErr Match :=
  match findMatchByID s mid with
  | none => (s, .error .matchNotFound)
  | some m =>
    if m.status = .completed then (s, .error .alreadyCompleted)
    else processResult s m req

/-- matchService.UpdateResult: legal only from completed; deletes the old
goal rows of the match before reprocessing the submitted batch. -/
def UpdateResult (s : Store) (mid : MatchID) (req : List GoalInput) :
    Store × Except AppErr Match :=
  match findMatchByID s mid with
  | none => (s, .error .matchNotFound)
  | some m =>
    if m.status ≠ .completed then (s, .error .notYetCompleted)
    else
      let s1 : Store := { s with goals := deleteGoalsByMatchID s.goals mid }
      processResult s1 m req

/-- matchService.Create after uuid parsing: distinct teams, both teams must
exist, then append a scheduled match with zero scores. The fresh row id is
supplied by the caller, standing for the generated primary key. -/
def Create (s : Store) (newId : MatchID) (home away : TeamID) (d t : String) :
    Store × Except AppErr Match :=
  if home = away then (s, .error .invalidTeams)
  else if ¬ home ∈ s.teams then (s, .error .homeTeamNotFound)
  else if ¬ away ∈ s.teams then (s, .error .awayTeamNotFound)
  else
    let m : Match :=
      { id := newId, homeTeamId := home, awayTeamId := away, matchDate := d,
        matchTime := t, homeScore := 0, awayScore := 0, status := .scheduled }
    ({ s with matchRows := s.matchRows ++ [m] }, .ok m)

/-- matchService.Update (schedule mutation): rejected on a completed match,
then the same team checks as Create; on success the schedule fields are
replaced and the row saved, the status untouched. -/
def Update (s : Store) (mid : MatchID) (home away : TeamID) (d t : String) :
    Store × Except AppErr Match :=
  match findMatchByID s mid with
  | none => (s, .error .matchNotFound)
  | some m =>
    if m.status = .completed then (s, .error .matchAlreadyCompleted)
    else if home = away then (s, .error .invalidTeams)
    else if ¬ home ∈ s.teams then (s, .error .homeTeamNotFound)
    else if ¬ away ∈ s.teams then (s, .error .awayTeamNotFound)
    else
      let m2 : Match :=
        { m with homeTeamId := home, awayTeamId := away, matchDate := d, matchTime := t }
      ({ s with matchRows := saveMatch s.matchRows m2 }, .ok m2)

/-- The gin binding validation on dto.MatchResultRequest: every GoalInput
carries the tag gte=1 on Minute, so binding succeeds only when every
submitted minute is at least 1. String-format checks (uuid shape) are
upstream of the parsed ids modelled here. -/
def bindResultRequest (req : List GoalInput) : Bool :=
  req.all (fun g => 1 ≤ g.minute)

/-- MatchHandler.SubmitResult: bind the request body first; a binding
failure is rejected before the service is invoked. -/
def handlerSubmitResult (s : Store) (mid : MatchID) (req : List GoalInput) :
    Store × Except AppErr Match :=
  if bindResultRequest req then SubmitResult s mid req
  else (s, .error .invalidMinute)

/-- MatchHandler.UpdateResult: bind the request body first; a binding
failure is rejected before the service is invoked. -/
def handlerUpdateResult (s : Store) (mid : MatchID) (req : List GoalInput) :
    Store × Except AppErr Match :=
  if bindResultRequest req then UpdateResult s mid req
  else (s, .error .invalidMinute)

/-- One administrator operation on the match store, as named by the data
model invariants: schedule creation, schedule mutation, result submission
and result replacement. -/
inductive Op where
  | create (newId : MatchID) (home away : TeamID) (d t : String)
  | update (mid : MatchID) (home away : TeamID) (d t : String)
  | submit (mid : MatchID) (req : List GoalInput)
  | updateRes (mid : MatchID) (req : List GoalInput)
deriving Repr

/-- The store reached after one operation, whether it succeeded or failed. -/
def applyOp (s : Store) : Op → Store
  | .create newId home away d t => (Create s newId home away d t).1
  | .update mid home away d t => (Update s mid home away d t).1
  | .submit mid req => (SubmitResult s mid req).1
  | .updateRes mid req => (UpdateResult s mid req).1

/-- The store reached after a sequence of operations. -/
def applyOps (s : Store) (ops : List Op) : Store :=
  ops.foldl applyOp s

/-- report_service.go computeMatchResult: outcome label of a score pair. -/
def computeMatchResult (homeScore awayScore : Int) : String :=
  if homeScore > awayScore then "Home Win"
  else if awayScore > homeScore then "Away Win"
  else "Draw"

/-- matchRepository.CountWins: completed matches in which the team is home
with the higher home score or away with the higher away score. -/
def CountWins (s : Store) (teamId : TeamID) : Nat :=
  s.matchRows.countP (fun m => decide (m.status = .completed ∧
    ((m.homeTeamId = teamId ∧ m.homeScore > m.awayScore) ∨
     (m.awayTeamId = teamId ∧ m.awayScore > m.homeScore))))

/-- Number of goals of one player inside a goal list. -/
def countFor (goals : List Goal) (pid : PlayerID) : Nat :=
  goals.countP (fun g => g.playerId == pid)

/-- The per-player goal counts accumulated by GetMatchReportByID: one entry
per distinct scoring player, carrying that player's goal count. The Go code
holds these in a map iterated in unspecified order; the embedding lists them
in first-occurrence order. -/
def playerCounts (goals : List Goal) : List (PlayerID × Nat) :=
  ((goals.map (fun g => g.playerId)).dedup).map (fun pid => (pid, countFor goals pid))

/-- The top-scorer scan of GetMatchReportByID: maxGoals starts at 0 and the
scorer starts absent; an entry replaces the current best exactly when its
count is strictly greater than the running maximum. -/
def topScorerScan :
    List (PlayerID × Nat) → Nat → Option (PlayerID × Nat) → Option (PlayerID × Nat)
  | [], _, best => best
  | pc :: rest, maxGoals, best =>
    if maxGoals < pc.2 then topScorerScan rest pc.2 (some pc)
    else topScorerScan rest maxGoals best

/-- The top scorer computed for a match report from its goal list. -/
def computeTopScorer (goals : List Goal) : Option (PlayerID × Nat) :=
  topScorerScan (playerCounts goals) 0 none

/-
  Concrete demo data used by the witness theorems: two teams with one
  player each, one scheduled match and one completed match with three
  persisted goals.
-/

def pHome : Player := { id := 10, teamId := 1, name := "a1" }

def pAway : Player := { id := 20, teamId := 2, name := "b1" }

def mSched : Match :=
  { id := 5, homeTeamId := 1, awayTeamId := 2, matchDate := "2025-06-15",
    matchTime := "19:30", homeScore := 0, awayScore := 0, status := .scheduled }

def mDone : Match :=
  { id := 6, homeTeamId := 1, awayTeamId := 2, matchDate := "2025-06-16",
    matchTime := "20:00", homeScore := 2, awayScore := 1, status := .completed }

def demoStore : Store :=
  { teams := [1, 2, 3], players := [pHome, pAway], matchRows := [mSched, mDone],
    goals := [{ matchId := 6, playerId := 10, teamId := 1, minute := 10 },
              { matchId := 6, playerId := 20, teamId := 2, minute := 55 },
              { matchId := 6, playerId := 10, teamId := 1, minute := 80 }] }

/-
  Outcome classification lemmas shared by several claims.
-/

lemma computeMatchResult_homeWin_iff (hs as : Int) :
    computeMatchResult hs as = "Home Win" ↔ as < hs := by
  unfold computeMatchResult
  split
  · next h1 => simpa using h1
  · next h1 =>
    split
    · next h2 =>
      constructor
      · intro h; exact absurd h (by decide)
      · intro h; exact absurd h (by omega)
    · next h2 =>
      constructor
      · intro h; exact absurd h (by decide)
      · intro h; exact absurd h (by omega)

lemma computeMatchResult_awayWin_iff (hs as : Int) :
    computeMatchResult hs as = "Away Win" ↔ hs < as := by
  unfold computeMatchResult
  split
  · next h1 =>
    constructor
    · intro h; exact absurd h (by decide)
    · intro h; exact absurd h (by omega)
  · next h1 =>
    split
    · next h2 => simpa using h2
    · next h2 =>
      constructor
      · intro h; exact absurd h (by decide)
      · intro h; exact absurd h (by omega)

lemma computeMatchResult_draw_iff (hs as : Int) :
    computeMatchResult hs as = "Draw" ↔ (¬ as < hs ∧ ¬ hs < as) := by
  unfold computeMatchResult
  split
  · next h1 =>
    constructor
    · intro h; exact absurd h (by decide)
    · intro h; exact absurd h1 (by omega)
  · next h1 =>
    split
    · next h2 =>
      constructor
      · intro h; exact absurd h (by decide)
      · intro h; exact absurd h2 (by omega)
    · next h2 =>
      constructor
      · intro h; exact ⟨by omega, by omega⟩
      · intro h; rfl

/-- C5: computeMatchResult is total over all integer score pairs and
returns the home-win label exactly when the home score is greater, the
away-win label exactly when the away score is greater, and the draw label
otherwise. -/
theorem C5_computeMatchResult_classifies (hs as : Int) :
    (computeMatchResult hs as = "Home Win" ↔ hs > as) ∧
    (computeMatchResult hs as = "Away Win" ↔ as > hs) ∧
    (computeMatchResult hs as = "Draw" ↔ (¬ hs > as ∧ ¬ as > hs)) := by
  exact ⟨computeMatchResult_homeWin_iff hs as, computeMatchResult_awayWin_iff hs as,
    computeMatchResult_draw_iff hs as⟩

/-- C9: for every team id and store state, CountWins equals the number of
completed matches in which the team is on the winning side according to
computeMatchResult: home team with the home-win label, or away team with
the away-win label. -/
theorem C9_CountWins_matches_outcomes (s : Store) (t : TeamID) :
    CountWins s t =
      (s.matchRows.filter (fun m => m.status == MatchStatus.completed)).countP
        (fun m => decide
          ((m.homeTeamId = t ∧ computeMatchResult m.homeScore m.awayScore = "Home Win") ∨
           (m.awayTeamId = t ∧ computeMatchResult m.homeScore m.awayScore = "Away Win"))) := by
  unfold CountWins
  rw [List.countP_filter]
  refine List.countP_congr ?_
  intro m _
  simp only [decide_eq_true_eq, Bool.and_eq_true, beq_iff_eq,
    computeMatchResult_homeWin_iff, computeMatchResult_awayWin_iff, gt_iff_lt]
  tauto

/-- C6: SubmitResult on a match whose status is not scheduled fails with
the already-completed rejection regardless of the goal payload, and the
store is unchanged. -/
theorem C6_submit_rejects_not_scheduled (s : Store) (mid : MatchID)
    (req : List GoalInput) (m : Match)
    (hfind : findMatchByID s mid = some m)
    (hst : m.status ≠ MatchStatus.scheduled) :
    SubmitResult s mid req = (s, .error .alreadyCompleted) := by
  have hc : m.status = MatchStatus.completed := by
    cases h : m.status
    · exact absurd h hst
    · rfl
  unfold SubmitResult
  rw [hfind]
  simp [hc]

/-- Witness for C6 at a concrete completed match. -/
theorem C6_witness :
    SubmitResult demoStore 6 [⟨10, 1, 30⟩] = (demoStore, .error .alreadyCompleted) :=
  C6_submit_rejects_not_scheduled demoStore 6 [⟨10, 1, 30⟩] mDone (by rfl) (by decide)

/-- C7: UpdateResult on a match whose status is not completed fails with
the not-yet-completed rejection, and the store (the match and its goal
rows included) is unchanged. -/
theorem C7_update_result_rejects_not_completed (s : Store) (mid : MatchID)
    (req : List GoalInput) (m : Match)
    (hfind : findMatchByID s mid = some m)
    (hst : m.status ≠ MatchStatus.completed) :
    UpdateResult s mid req = (s, .error .notYetCompleted) := by
  unfold UpdateResult
  rw [hfind]
  simp [hst]

/-- Witness for C7 at a concrete scheduled match. -/
theorem C7_witness :
    UpdateResult demoStore 5 [⟨10, 1, 30⟩] = (demoStore, .error .notYetCompleted) :=
  C7_update_result_rejects_not_completed demoStore 5 [⟨10, 1, 30⟩] mSched (by rfl) (by decide)

/-
  Lookup lemmas about the match-row list, shared by the lifecycle claims.
-/

lemma find?_append_left {p : Match → Bool} {l l2 : List Match} {a : Match}
    (h : l.find? p = some a) : (l ++ l2).find? p = some a := by
  rw [List.find?_append, h, Option.or_some]

lemma find?_saveMatch_of_ne (l : List Match) (m2 : Match) (mid : MatchID)
    (h : m2.id ≠ mid) :
    (saveMatch l m2).find? (fun x => x.id == mid) = l.find? (fun x => x.id == mid) := by
  induction l with
  | nil => rfl
  | cons x xs ih =>
    unfold saveMatch at ih ⊢
    rw [List.map_cons]
    by_cases hx : x.id = m2.id
    · rw [if_pos (by simpa using hx)]
      rw [List.find?_cons_of_neg _ (by simpa using h),
          List.find?_cons_of_neg _ (by simp [hx]; exact h ∘ Eq.symm ∘ Eq.symm)]
      exact ih
    · rw [if_neg (by simpa using hx)]
      by_cases hxm : x.id = mid
      · rw [List.find?_cons_of_pos _ (by simpa using hxm),
            List.find?_cons_of_pos _ (by simpa using hxm)]
      · rw [List.find?_cons_of_neg _ (by simpa using hxm),
            List.find?_cons_of_neg _ (by simpa using hxm)]
        exact ih

lemma find?_saveMatch_self (l : List Match) (m0 m2 : Match)
    (hfind : l.find? (fun x => x.id == m2.id) = some m0) :
    (saveMatch l m2).find? (fun x => x.id == m2.id) = some m2 := by
  induction l with
  | nil => simp [List.find?] at hfind
  | cons x xs ih =>
    unfold saveMatch at ih ⊢
    rw [List.map_cons]
    by_cases hx : x.id = m2.id
    · rw [if_pos (by simpa using hx)]
      rw [List.find?_cons_of_pos _ (by simp)]
    · rw [if_neg (by simpa using hx)]
      rw [List.find?_cons_of_neg _ (by simpa using hx)]
      rw [List.find?_cons_of_neg _ (by simpa using hx)] at hfind
      exact ih hfind

lemma find?_saveMatch_self_of_id (l : List Match) (m0 m2 : Match) (mid : MatchID)
    (hid : m2.id = mid)
    (hfind : l.find? (fun x => x.id == mid) = some m0) :
    (saveMatch l m2).find? (fun x => x.id == mid) = some m2 := by
  subst hid
  exact find?_saveMatch_self l m0 m2 hfind

/-- C10: SubmitResult on a scheduled match with an empty goal list is
accepted by the service layer: the call succeeds, no goal row is written,
the persisted match carries scores 0 and 0 and status completed, and a 0-0
score pair is classified as a draw in reports. -/
theorem C10_submit_empty_goal_list (s : Store) (mid : MatchID) (m : Match)
    (hfind : findMatchByID s mid = some m)
    (hst : m.status = MatchStatus.scheduled) :
    (SubmitResult s mid []).2 =
      .ok { m with homeScore := 0, awayScore := 0, status := .completed } ∧
    (SubmitResult s mid []).1.goals = s.goals ∧
    findMatchByID (SubmitResult s mid []).1 mid =
      some { m with homeScore := 0, awayScore := 0, status := .completed } := by
  have hmid : m.id = mid := by simpa using List.find?_some hfind
  have hnc : ¬ m.status = MatchStatus.completed := by simp [hst]
  have hred : SubmitResult s mid [] =
      ({ s with goals := createGoalsBatch s.goals [],
                matchRows := saveMatch s.matchRows
                  { m with homeScore := 0, awayScore := 0, status := .completed } },
       .ok { m with homeScore := 0, awayScore := 0, status := .completed }) := by
    simp only [SubmitResult, hfind, if_neg hnc]
    rfl
  rw [hred]
  exact ⟨rfl, by simp [createGoalsBatch],
    find?_saveMatch_self_of_id s.matchRows m _ mid hmid hfind⟩

/-- Witness for C10 at the concrete scheduled demo match. -/
theorem C10_witness :
    (SubmitResult demoStore 5 []).2 =
      .ok { mSched with homeScore := 0, awayScore := 0, status := .completed } ∧
    (SubmitResult demoStore 5 []).1.goals = demoStore.goals ∧
    findMatchByID (SubmitResult demoStore 5 []).1 5 =
      some { mSched with homeScore := 0, awayScore := 0, status := .completed } :=
  C10_submit_empty_goal_list demoStore 5 mSched (by rfl) (by decide)

/-- C3: a result request containing a goal with minute below 1 is rejected
by the binding validation before either service operation runs: both the
submit path and the update path fail with the invalid-minute rejection and
the store is untouched. -/
theorem C3_minute_below_one_rejected (s : Store) (mid : MatchID)
    (req : List GoalInput) (g : GoalInput)
    (hg : g ∈ req) (hm : g.minute < 1) :
    handlerSubmitResult s mid req = (s, .error .invalidMinute) ∧
    handlerUpdateResult s mid req = (s, .error .invalidMinute) := by
  have hb : bindResultRequest req = false := by
    unfold bindResultRequest
    rw [List.all_eq_false]
    exact ⟨g, hg, by simpa using hm⟩
  unfold handlerSubmitResult handlerUpdateResult
  rw [hb]
  exact ⟨rfl, rfl⟩

/-- Witness for C3 at a concrete request whose only goal has minute 0. -/
theorem C3_witness :
    handlerSubmitResult demoStore 5 [⟨10, 1, 0⟩] = (demoStore, .error .invalidMinute) ∧
    handlerUpdateResult demoStore 5 [⟨10, 1, 0⟩] = (demoStore, .error .invalidMinute) :=
  C3_minute_below_one_rejected demoStore 5 [⟨10, 1, 0⟩] ⟨10, 1, 0⟩ (by decide) (by decide)

lemma goalsOfMatch_delete (s : Store) (mid : MatchID) :
    goalsOfMatch { s with goals := deleteGoalsByMatchID s.goals mid } mid = [] := by
  unfold goalsOfMatch deleteGoalsByMatchID
  simp only [List.filter_filter, Bool.and_not_self]
  exact List.filter_false s.goals

/-- C2 counterexample: on the completed demo match, which owns three goal
rows, an UpdateResult call whose only goal references a team outside the
match fails validation, yet the persisted goal rows of the match have
changed: the old rows were deleted before validation ran. -/
theorem C2_counterexample :
    (UpdateResult demoStore 6 [⟨10, 3, 15⟩]).2 = .error .teamNotInMatch ∧
    goalsOfMatch (UpdateResult demoStore 6 [⟨10, 3, 15⟩]).1 6 ≠ goalsOfMatch demoStore 6 := by
  exact ⟨rfl, by decide⟩

/-- C2 amended: a SubmitResult call that fails leaves the store entirely
unchanged; an UpdateResult call that fails after the status check (that
is, on goal validation) writes no goal rows and leaves every match row,
scores and status included, unchanged, but the goal rows of the target
match have already been deleted, so the match is left with no goals. -/
theorem C2_amended_failed_call_writes (s : Store) (mid : MatchID)
    (req : List GoalInput) (e : AppErr) :
    ((SubmitResult s mid req).2 = .error e → (SubmitResult s mid req).1 = s) ∧
    ((UpdateResult s mid req).2 = .error e →
      e ≠ .matchNotFound → e ≠ .notYetCompleted →
      ((UpdateResult s mid req).1.matchRows = s.matchRows ∧
       (UpdateResult s mid req).1.goals = deleteGoalsByMatchID s.goals mid ∧
       goalsOfMatch (UpdateResult s mid req).1 mid = [])) := by
  constructor
  · intro he
    unfold SubmitResult at he ⊢
    cases hf : findMatchByID s mid with
    | none => simp [hf]
    | some m =>
      simp only [hf] at he ⊢
      by_cases hc : m.status = MatchStatus.completed
      · simp [hc]
      · simp only [if_neg hc] at he ⊢
        unfold processResult at he ⊢
        cases hp : processGoalsAux s m req 0 0 [] with
        | error e2 => simp [hp]
        | ok t =>
          obtain ⟨hs, as, gs⟩ := t
          rw [hp] at he
          simp at he
  · intro he hne1 hne2
    unfold UpdateResult at he ⊢
    cases hf : findMatchByID s mid with
    | none =>
      rw [hf] at he
      simp only [Except.error.injEq] at he
      exact absurd he.symm hne1
    | some m =>
      simp only [hf] at he ⊢
      by_cases hc : m.status = MatchStatus.completed
      · have hcc : ¬ m.status ≠ MatchStatus.completed := by simpa using hc
        simp only [if_neg hcc] at he ⊢
        unfold processResult at he ⊢
        cases hp : processGoalsAux { s with goals := deleteGoalsByMatchID s.goals mid } m req 0 0 [] with
        | error e2 =>
          exact ⟨rfl, rfl, goalsOfMatch_delete s mid⟩
        | ok t =>
          obtain ⟨hs, as, gs⟩ := t
          rw [hp] at he
          simp at he
      · rw [if_pos hc] at he
        simp only [Except.error.injEq] at he
        exact absurd he.symm hne2

/-- Witness for the amended C2 at the concrete failing UpdateResult call. -/
theorem C2_amended_witness :
    (UpdateResult demoStore 6 [⟨10, 3, 15⟩]).1.matchRows = demoStore.matchRows ∧
    (UpdateResult demoStore 6 [⟨10, 3, 15⟩]).1.goals =
      deleteGoalsByMatchID demoStore.goals 6 ∧
    goalsOfMatch (UpdateResult demoStore 6 [⟨10, 3, 15⟩]).1 6 = [] :=
  (C2_amended_failed_call_writes demoStore 6 [⟨10, 3, 15⟩] .teamNotInMatch).2
    (by rfl) (by decide) (by decide)

lemma processGoalsAux_ok (s : Store) (m : Match) :
    ∀ (l : List GoalInput) (hs as : Int) (acc : List Goal)
      (hs2 as2 : Int) (gs : List Goal),
      processGoalsAux s m l hs as acc = .ok (hs2, as2, gs) →
      hs2 = hs + (l.countP (fun g => g.teamId == m.homeTeamId) : Int) ∧
      hs2 + as2 = hs + as + l.length ∧
      gs = acc.reverse ++ l.map (toGoal m) ∧
      (m.homeTeamId ≠ m.awayTeamId →
        as2 = as + (l.countP (fun g => g.teamId == m.awayTeamId) : Int)) := by
  intro l
  induction l with
  | nil =>
    intro hs as acc hs2 as2 gs h
    unfold processGoalsAux at h
    simp only [Except.ok.injEq, Prod.mk.injEq] at h
    obtain ⟨h1, h2, h3⟩ := h
    subst h1; subst h2; subst h3
    simp
  | cons g rest ih =>
    intro hs as acc hs2 as2 gs h
    unfold processGoalsAux at h
    by_cases hv : g.teamId ≠ m.homeTeamId ∧ g.teamId ≠ m.awayTeamId
    · rw [if_pos hv] at h
      simp at h
    · rw [if_neg hv] at h
      cases hpl : findPlayerByID s g.playerId with
      | none => rw [hpl] at h; simp at h
      | some p =>
        simp only [hpl] at h
        by_cases hpt : p.teamId ≠ g.teamId
        · rw [if_pos hpt] at h; simp at h
        · rw [if_neg hpt] at h
          by_cases hgh : g.teamId = m.homeTeamId
          · rw [if_pos hgh] at h
            obtain ⟨h1, h2, h3, h4⟩ := ih (hs + 1) as (toGoal m g :: acc) hs2 as2 gs h
            have hcp : (g :: rest).countP (fun x => x.teamId == m.homeTeamId) =
                rest.countP (fun x => x.teamId == m.homeTeamId) + 1 := by
              rw [List.countP_cons]
              simp [hgh]
            refine ⟨?_, ?_, ?_, ?_⟩
            · rw [hcp]; omega
            · rw [List.length_cons]; omega
            · rw [h3, List.map_cons, List.reverse_cons, List.append_assoc]
              rfl
            · intro hne
              have h4i := h4 hne
              have hga : ¬ (g.teamId = m.awayTeamId) := by rw [hgh]; exact hne
              have hcpa : (g :: rest).countP (fun x => x.teamId == m.awayTeamId) =
                  rest.countP (fun x => x.teamId == m.awayTeamId) := by
                rw [List.countP_cons]
                simp [hga]
              rw [hcpa]; omega
          · rw [if_neg hgh] at h
            have hga : g.teamId = m.awayTeamId := by
              push_neg at hv
              exact hv hgh
            obtain ⟨h1, h2, h3, h4⟩ := ih hs (as + 1) (toGoal m g :: acc) hs2 as2 gs h
            have hcp : (g :: rest).countP (fun x => x.teamId == m.homeTeamId) =
                rest.countP (fun x => x.teamId == m.homeTeamId) := by
              rw [List.countP_cons]
              simp [hgh]
            refine ⟨?_, ?_, ?_, ?_⟩
            · rw [hcp]; omega
            · rw [List.length_cons]; omega
            · rw [h3, List.map_cons, List.reverse_cons, List.append_assoc]
              rfl
            · intro hne
              have h4i := h4 hne
              have hcpa : (g :: rest).countP (fun x => x.teamId == m.awayTeamId) =
                  rest.countP (fun x => x.teamId == m.awayTeamId) + 1 := by
                rw [List.countP_cons]
                simp [hga]
              rw [hcpa]; omega

lemma processResult_ok_spec (s : Store) (m : Match) (req : List GoalInput)
    (s2 : Store) (m2 : Match) (mid : MatchID)
    (hne : m.homeTeamId ≠ m.awayTeamId)
    (hmid : m.id = mid)
    (hfind : findMatchByID s mid = some m)
    (hpre : goalsOfMatch s mid = [])
    (h : processResult s m req = (s2, .ok m2)) :
    m2.homeScore = (req.countP (fun g => g.teamId == m.homeTeamId) : Int) ∧
    m2.awayScore = (req.countP (fun g => g.teamId == m.awayTeamId) : Int) ∧
    m2.homeScore + m2.awayScore = ((goalsOfMatch s2 m2.id).length : Int) ∧
    m2.homeTeamId = m.homeTeamId ∧ m2.awayTeamId = m.awayTeamId ∧
    m2.id = mid ∧ findMatchByID s2 mid = some m2 := by
  unfold processResult at h
  cases hp : processGoalsAux s m req 0 0 [] with
  | error e => rw [hp] at h; simp at h
  | ok t =>
    obtain ⟨hs, as, gs⟩ := t
    rw [hp] at h
    obtain ⟨hg1, hg2, hg3, hg4⟩ := processGoalsAux_ok s m req 0 0 [] hs as gs hp
    have hg4i := hg4 hne
    simp only [List.reverse_nil, List.nil_append] at hg3
    simp only [Prod.mk.injEq, Except.ok.injEq] at h
    obtain ⟨hst, hm2⟩ := h
    subst hst
    subst hm2
    refine ⟨?_, ?_, ?_, rfl, rfl, hmid, ?_⟩
    · show hs = _
      omega
    · show as = _
      omega
    · show hs + as =
        (((createGoalsBatch s.goals gs).filter (fun g => g.matchId == m.id)).length : Int)
      unfold createGoalsBatch
      unfold goalsOfMatch at hpre
      rw [hmid, List.filter_append, hpre, List.nil_append]
      have hall : gs.filter (fun g => g.matchId == mid) = gs := by
        refine List.filter_eq_self.mpr ?_
        intro a ha
        rw [hg3] at ha
        obtain ⟨x, _, rfl⟩ := List.mem_map.mp ha
        simp [toGoal, hmid]
      rw [hall, hg3, List.length_map]
      omega
    · exact find?_saveMatch_self_of_id s.matchRows m _ mid hmid hfind

/-- C1: when SubmitResult or UpdateResult succeeds, the persisted home
score equals the number of goals of the submitted batch naming the home
team, the away score the number naming the away team, and the two scores
sum to the number of goal rows persisted for the match. For SubmitResult
the match carries no prior goal rows, as scheduled matches never do. -/
theorem C1_persisted_scores (s : Store) (mid : MatchID) (req : List GoalInput)
    (s2 : Store) (m2 m : Match)
    (hfind : findMatchByID s mid = some m)
    (hne : m.homeTeamId ≠ m.awayTeamId)
    (hcall : (SubmitResult s mid req = (s2, .ok m2) ∧ goalsOfMatch s mid = []) ∨
             UpdateResult s mid req = (s2, .ok m2)) :
    m2.homeScore = (req.countP (fun g => g.teamId == m2.homeTeamId) : Int) ∧
    m2.awayScore = (req.countP (fun g => g.teamId == m2.awayTeamId) : Int) ∧
    m2.homeScore + m2.awayScore = ((goalsOfMatch s2 m2.id).length : Int) ∧
    findMatchByID s2 mid = some m2 := by
  have hmid : m.id = mid := by simpa using List.find?_some hfind
  rcases hcall with ⟨hcall, hpre⟩ | hcall
  · unfold SubmitResult at hcall
    simp only [hfind] at hcall
    by_cases hc : m.status = MatchStatus.completed
    · rw [if_pos hc] at hcall; simp at hcall
    · rw [if_neg hc] at hcall
      obtain ⟨h1, h2, h3, h4, h5, _, h7⟩ :=
        processResult_ok_spec s m req s2 m2 mid hne hmid hfind hpre hcall
      rw [h4, h5]
      exact ⟨h1, h2, h3, h7⟩
  · unfold UpdateResult at hcall
    simp only [hfind] at hcall
    by_cases hc : m.status ≠ MatchStatus.completed
    · rw [if_pos hc] at hcall; simp at hcall
    · rw [if_neg hc] at hcall
      obtain ⟨h1, h2, h3, h4, h5, _, h7⟩ :=
        processResult_ok_spec { s with goals := deleteGoalsByMatchID s.goals mid }
          m req s2 m2 mid hne hmid hfind (goalsOfMatch_delete s mid) hcall
      rw [h4, h5]
      exact ⟨h1, h2, h3, h7⟩

/-- The request of the spec scenario: two home goals and one away goal. -/
def reqDemo : List GoalInput := [⟨10, 1, 10⟩, ⟨20, 2, 55⟩, ⟨10, 1, 80⟩]

/-- The match row persisted by submitting reqDemo to the scheduled demo match. -/
def mFin : Match := { mSched with homeScore := 2, awayScore := 1, status := .completed }

/-- Witness for C1 at the concrete 2-1 submit scenario. -/
theorem C1_witness :
    mFin.homeScore = (reqDemo.countP (fun g => g.teamId == mFin.homeTeamId) : Int) ∧
    mFin.awayScore = (reqDemo.countP (fun g => g.teamId == mFin.awayTeamId) : Int) ∧
    mFin.homeScore + mFin.awayScore =
      ((goalsOfMatch (SubmitResult demoStore 5 reqDemo).1 mFin.id).length : Int) ∧
    findMatchByID (SubmitResult demoStore 5 reqDemo).1 5 = some mFin :=
  C1_persisted_scores demoStore 5 reqDemo (SubmitResult demoStore 5 reqDemo).1
    mFin mSched (by rfl) (by decide) (.inl ⟨by rfl, by rfl⟩)

lemma processResult_matchRows (s : Store) (m : Match) (req : List GoalInput) :
    (processResult s m req).1.matchRows = s.matchRows ∨
    ∃ m2 : Match, m2.id = m.id ∧ m2.status = MatchStatus.completed ∧
      (processResult s m req).1.matchRows = saveMatch s.matchRows m2 := by
  unfold processResult
  cases hp : processGoalsAux s m req 0 0 [] with
  | error e => left; rfl
  | ok t =>
    obtain ⟨hs, as, gs⟩ := t
    right
    exact ⟨{ m with homeScore := hs, awayScore := as, status := .completed }, rfl, rfl, rfl⟩

lemma applyOp_preserves_completed (op : Op) (s : Store) (mid : MatchID) (m : Match)
    (hfind : findMatchByID s mid = some m)
    (hst : m.status = MatchStatus.completed) :
    ∃ m2, findMatchByID (applyOp s op) mid = some m2 ∧
      m2.status = MatchStatus.completed := by
  cases op with
  | create newId home away d t =>
    simp only [applyOp]
    unfold Create
    by_cases h1 : home = away
    · rw [if_pos h1]; exact ⟨m, hfind, hst⟩
    · rw [if_neg h1]
      by_cases h2 : ¬ home ∈ s.teams
      · rw [if_pos h2]; exact ⟨m, hfind, hst⟩
      · rw [if_neg h2]
        by_cases h3 : ¬ away ∈ s.teams
        · rw [if_pos h3]; exact ⟨m, hfind, hst⟩
        · rw [if_neg h3]
          exact ⟨m, find?_append_left hfind, hst⟩
  | update mid2 home away d t =>
    simp only [applyOp]
    unfold Update
    cases hf2 : findMatchByID s mid2 with
    | none => exact ⟨m, hfind, hst⟩
    | some m0 =>
      dsimp only
      by_cases hcs : m0.status = MatchStatus.completed
      · rw [if_pos hcs]; exact ⟨m, hfind, hst⟩
      · rw [if_neg hcs]
        by_cases h1 : home = away
        · rw [if_pos h1]; exact ⟨m, hfind, hst⟩
        · rw [if_neg h1]
          by_cases h2 : ¬ home ∈ s.teams
          · rw [if_pos h2]; exact ⟨m, hfind, hst⟩
          · rw [if_neg h2]
            by_cases h3 : ¬ away ∈ s.teams
            · rw [if_pos h3]; exact ⟨m, hfind, hst⟩
            · rw [if_neg h3]
              have hm0id : m0.id = mid2 := by simpa using List.find?_some hf2
              have hneq : mid2 ≠ mid := by
                intro hcontra
                subst hcontra
                rw [hfind] at hf2
                injection hf2 with hmm
                exact hcs (hmm ▸ hst)
              refine ⟨m, ?_, hst⟩
              show (saveMatch s.matchRows _).find? (fun x => x.id == mid) = some m
              rw [find?_saveMatch_of_ne]
              · exact hfind
              · show m0.id ≠ mid
                exact fun hh => hneq (hm0id.symm.trans hh)
  | submit mid2 req =>
    simp only [applyOp]
    unfold SubmitResult
    cases hf2 : findMatchByID s mid2 with
    | none => exact ⟨m, hfind, hst⟩
    | some m0 =>
      dsimp only
      by_cases hcs : m0.status = MatchStatus.completed
      · rw [if_pos hcs]; exact ⟨m, hfind, hst⟩
      · rw [if_neg hcs]
        have hm0id : m0.id = mid2 := by simpa using List.find?_some hf2
        have hneq : mid2 ≠ mid := by
          intro hcontra
          subst hcontra
          rw [hfind] at hf2
          injection hf2 with hmm
          exact hcs (hmm ▸ hst)
        rcases processResult_matchRows s m0 req with hrows | ⟨m2p, hid, hcomp, hrows⟩
        · refine ⟨m, ?_, hst⟩
          unfold findMatchByID
          rw [hrows]
          exact hfind
        · refine ⟨m, ?_, hst⟩
          unfold findMatchByID
          rw [hrows, find?_saveMatch_of_ne]
          · exact hfind
          · rw [hid]
            exact fun hh => hneq (hm0id.symm.trans hh)
  | updateRes mid2 req =>
    simp only [applyOp]
    unfold UpdateResult
    cases hf2 : findMatchByID s mid2 with
    | none => exact ⟨m, hfind, hst⟩
    | some m0 =>
      dsimp only
      by_cases hcs : m0.status ≠ MatchStatus.completed
      · rw [if_pos hcs]; exact ⟨m, hfind, hst⟩
      · rw [if_neg hcs]
        have hm0id : m0.id = mid2 := by simpa using List.find?_some hf2
        rcases processResult_matchRows
            { s with goals := deleteGoalsByMatchID s.goals mid2 } m0 req with
          hrows | ⟨m2p, hid, hcomp, hrows⟩
        · refine ⟨m, ?_, hst⟩
          unfold findMatchByID
          rw [hrows]
          exact hfind
        · by_cases hneq : mid2 = mid
          · subst hneq
            refine ⟨m2p, ?_, hcomp⟩
            unfold findMatchByID
            rw [hrows]
            exact find?_saveMatch_self_of_id _ m0 m2p mid2 (by rw [hid]; exact hm0id) hf2
          · refine ⟨m, ?_, hst⟩
            unfold findMatchByID
            rw [hrows, find?_saveMatch_of_ne]
            · exact hfind
            · rw [hid]
              exact fun hh => hneq (hm0id.symm.trans hh)

/-- C4: across every sequence of Create, Update, SubmitResult and
UpdateResult operations, a match observed with status completed is never
later observed with status scheduled: its looked-up row stays completed. -/
theorem C4_completed_never_rescheduled (ops : List Op) (s : Store) (mid : MatchID)
    (m m2 : Match)
    (hfind : findMatchByID s mid = some m)
    (hst : m.status = MatchStatus.completed)
    (hfind2 : findMatchByID (applyOps s ops) mid = some m2) :
    m2.status = MatchStatus.completed := by
  induction ops generalizing s m with
  | nil =>
    unfold applyOps at hfind2
    simp only [List.foldl_nil] at hfind2
    rw [hfind] at hfind2
    injection hfind2 with h
    rw [← h]
    exact hst
  | cons op rest ih =>
    obtain ⟨mm, hmm, hmmst⟩ := applyOp_preserves_completed op s mid m hfind hst
    exact ih (applyOp s op) mm hmm hmmst hfind2

/-- A demo operation sequence: complete the scheduled match, attempt a
schedule edit of the completed match, then replace its result. -/
def opsDemo : List Op :=
  [.submit 5 [], .update 6 1 3 "2025-07-01" "18:00", .updateRes 6 [⟨20, 2, 44⟩]]

/-- The row of the completed demo match after opsDemo has run. -/
def mDoneAfter : Match := { mDone with homeScore := 0, awayScore := 1 }

/-- Witness for C4 on the demo store and the demo operation sequence. -/
theorem C4_witness : mDoneAfter.status = MatchStatus.completed :=
  C4_completed_never_rescheduled opsDemo demoStore 6 mDone mDoneAfter
    (by rfl) (by rfl) (by rfl)

/-
  Lemmas about the top-scorer scan.
-/

lemma topScorerScan_eq_none (l : List (PlayerID × Nat)) :
    ∀ (maxGoals : Nat) (best : Option (PlayerID × Nat)),
      topScorerScan l maxGoals best = none ↔
        best = none ∧ ∀ pc ∈ l, pc.2 ≤ maxGoals := by
  induction l with
  | nil =>
    intro maxGoals best
    simp [topScorerScan]
  | cons pc rest ih =>
    intro maxGoals best
    unfold topScorerScan
    by_cases hgt : maxGoals < pc.2
    · rw [if_pos hgt, ih]
      constructor
      · rintro ⟨h, -⟩
        exact absurd h (by simp)
      · rintro ⟨-, hall⟩
        exact absurd (hall pc (List.mem_cons_self pc rest)) (by omega)
    · rw [if_neg hgt, ih]
      constructor
      · rintro ⟨hb, hall⟩
        refine ⟨hb, ?_⟩
        intro x hx
        rcases List.mem_cons.mp hx with rfl | hx2
        · omega
        · exact hall x hx2
      · rintro ⟨hb, hall⟩
        exact ⟨hb, fun x hx => hall x (List.mem_cons_of_mem pc hx)⟩

lemma topScorerScan_eq_some (l : List (PlayerID × Nat)) :
    ∀ (maxGoals : Nat) (best : Option (PlayerID × Nat)) (p : PlayerID) (c : Nat),
      (∀ b, best = some b → maxGoals = b.2) →
      topScorerScan l maxGoals best = some (p, c) →
      ((p, c) ∈ l ∨ best = some (p, c)) ∧
        (∀ pc ∈ l, pc.2 ≤ c) ∧ maxGoals ≤ c := by
  induction l with
  | nil =>
    intro maxGoals best p c hinv h
    simp only [topScorerScan] at h
    refine ⟨Or.inr h, by simp, ?_⟩
    rw [hinv _ h]
  | cons pc rest ih =>
    intro maxGoals best p c hinv h
    unfold topScorerScan at h
    by_cases hgt : maxGoals < pc.2
    · rw [if_pos hgt] at h
      obtain ⟨hmem, hall, hle⟩ :=
        ih pc.2 (some pc) p c (by intro b hb; injection hb with hb; rw [hb]) h
      refine ⟨?_, ?_, by omega⟩
      · rcases hmem with hm | hm
        · exact Or.inl (List.mem_cons_of_mem pc hm)
        · injection hm with hm
          exact Or.inl (hm ▸ List.mem_cons_self pc rest)
      · intro x hx
        rcases List.mem_cons.mp hx with rfl | hx2
        · omega
        · exact hall x hx2
    · rw [if_neg hgt] at h
      obtain ⟨hmem, hall, hle⟩ := ih maxGoals best p c hinv h
      refine ⟨?_, ?_, hle⟩
      · rcases hmem with hm | hm
        · exact Or.inl (List.mem_cons_of_mem pc hm)
        · exact Or.inr hm
      · intro x hx
        rcases List.mem_cons.mp hx with rfl | hx2
        · omega
        · exact hall x hx2

lemma playerCounts_mem (goals : List Goal) (pc : PlayerID × Nat)
    (h : pc ∈ playerCounts goals) :
    pc.2 = countFor goals pc.1 ∧ 1 ≤ pc.2 := by
  unfold playerCounts at h
  obtain ⟨pid, hpid, rfl⟩ := List.mem_map.mp h
  refine ⟨rfl, ?_⟩
  have hmem : pid ∈ goals.map (fun g => g.playerId) := List.mem_dedup.mp hpid
  obtain ⟨g, hg, rfl⟩ := List.mem_map.mp hmem
  have hpos : 0 < goals.countP (fun x => x.playerId == g.playerId) :=
    List.countP_pos_iff.mpr ⟨g, hg, by simp⟩
  show 1 ≤ countFor goals g.playerId
  unfold countFor
  omega

lemma playerCounts_complete (goals : List Goal) (pid : PlayerID)
    (h : pid ∈ goals.map (fun g => g.playerId)) :
    (pid, countFor goals pid) ∈ playerCounts goals := by
  unfold playerCounts
  exact List.mem_map.mpr ⟨pid, List.mem_dedup.mpr h, rfl⟩

/-- C8: the top scorer of a match report is absent exactly when the match
has no goals; when present, it is a player whose goal count in the match
is at least every other player's count, and the reported count is that
player's own goal count. -/
theorem C8_top_scorer_maximal (goals : List Goal) :
    (computeTopScorer goals = none ↔ goals = []) ∧
    (∀ p c, computeTopScorer goals = some (p, c) →
      countFor goals p = c ∧ 1 ≤ c ∧ ∀ q : PlayerID, countFor goals q ≤ c) := by
  constructor
  · unfold computeTopScorer
    rw [topScorerScan_eq_none]
    constructor
    · rintro ⟨-, hall⟩
      cases hg : goals with
      | nil => rfl
      | cons g gs =>
        subst hg
        have hmem := playerCounts_complete (g :: gs) g.playerId (by simp)
        have hle := hall _ hmem
        have hpos := (playerCounts_mem (g :: gs) _ hmem).2
        simp at hle hpos
        omega
    · intro h
      subst h
      exact ⟨rfl, by simp [playerCounts]⟩
  · intro p c h
    unfold computeTopScorer at h
    obtain ⟨hmem, hall, -⟩ :=
      topScorerScan_eq_some (playerCounts goals) 0 none p c (by intro b hb; cases hb) h
    rcases hmem with hm | hm
    · obtain ⟨hcnt, hpos⟩ := playerCounts_mem goals (p, c) hm
      refine ⟨hcnt.symm, hpos, ?_⟩
      intro q
      by_cases hq : q ∈ goals.map (fun g => g.playerId)
      · exact hall _ (playerCounts_complete goals q hq)
      · have hzero : countFor goals q = 0 := by
          unfold countFor
          rw [List.countP_eq_zero]
          intro a ha hqa
          exact hq (List.mem_map.mpr ⟨a, ha, by simpa using hqa⟩)
        omega
    · cases hm

/-- Witness for C8 on the goal rows of the completed demo match. -/
theorem C8_witness :
    countFor demoStore.goals 10 = 2 ∧ countFor demoStore.goals 20 ≤ 2 :=
  ⟨((C8_top_scorer_maximal demoStore.goals).2 10 2 (by rfl)).1,
   ((C8_top_scorer_maximal demoStore.goals).2 10 2 (by rfl)).2.2 20⟩

end XyzFootball
